import Mathlib

/-!
Shallow embedding of the hangman backend (`backend/utils.py` and
`backend/app.py`): difficulty configuration, word-list filtering, status
projection, the guess state machine and the restart operation, together with
theorems checking the specification's claims about them.

Python strings are modelled as Lean `String` (a wrapper around `List Char`),
Python sets of single-character strings as duplicate-free `List Char`, the
in-memory `games` dict as an association list, raised `HTTPException`s as an
explicit error sum, and the file-system / randomness inputs of word loading
and secret choice as explicit parameters.
-/

namespace Hangman

/-! ### Models of the Python string primitives used by the code -/

/-- Model of Python `str.strip()`: drop leading and trailing whitespace. -/
def pyStrip (s : String) : String :=
  ⟨((s.data.dropWhile Char.isWhitespace).reverse.dropWhile Char.isWhitespace).reverse⟩

/-- Model of Python `str.lower()` (ASCII case mapping). -/
def pyLower (s : String) : String :=
  ⟨s.data.map Char.toLower⟩

/-- Model of Python `str.isalpha()`: nonempty and every character alphabetic. -/
def pyIsAlphaStr (s : String) : Bool :=
  !s.data.isEmpty && s.data.all Char.isAlpha

/-! ### `utils.py`: difficulty table, word loading, validation, status -/

/-- One row of the `DIFFICULTY` table in `utils.py`. -/
structure DiffCfg where
  min_len : Nat
  max_len : Nat
  lives : Nat
  file : String
deriving DecidableEq, Repr

/-- The `DIFFICULTY` table from `utils.py`. -/
def DIFFICULTY : List (String × DiffCfg) :=
  [("easy",   ⟨5, 6, 10, "words_easy.txt"⟩),
   ("normal", ⟨6, 8, 7,  "words_normal.txt"⟩),
   ("hard",   ⟨7, 99, 5, "words_hard.txt"⟩)]

/-- Dictionary lookup in the `DIFFICULTY` table. -/
def dlookup (difficulty : String) : Option DiffCfg :=
  (DIFFICULTY.find? (fun p => p.1 = difficulty)).map (fun p => p.2)

/-- Errors raised by `load_words` in `utils.py`: `ValueError` for an unknown
difficulty, `FileNotFoundError` for a missing word-list file. -/
inductive LoadError where
  | unknownDifficulty
  | fileNotFound
deriving DecidableEq, Repr

/-- The per-line processing of the `load_words` loop in `utils.py`: strip and
lowercase the line, skip it when empty, non-alphabetic or out of the tier's
length bounds. -/
def process_line (cfg : DiffCfg) (line : String) : Option String :=
  let w := pyLower (pyStrip line)
  if w.data.isEmpty || !(w.data.all Char.isAlpha) then none
  else if !(cfg.min_len ≤ w.length && w.length ≤ cfg.max_len) then none
  else some w

/-- The `seen`-set deduplication loop of `load_words`: keep a word only when
it has not appeared before. -/
def dedup_loop (seen : List String) : List String → List String
  | [] => []
  | w :: ws => if w ∈ seen then dedup_loop seen ws else w :: dedup_loop (w :: seen) ws

/-- Model of `load_words` from `utils.py`.  The file system is abstracted as
`file : Option (List String)`: `none` when the backing word-list file cannot
be located, `some lines` for its list of lines. -/
def load_words (difficulty : String) (file : Option (List String)) :
    Except LoadError (List String) :=
  match dlookup difficulty with
  | none => .error .unknownDifficulty
  | some cfg =>
    match file with
    | none => .error .fileNotFound
    | some lines => .ok (dedup_loop [] (lines.filterMap (process_line cfg)))

/-- `is_valid_letter` from `utils.py`. -/
def is_valid_letter (ch : String) : Bool :=
  let c := pyStrip ch
  if c.data.length ≠ 1 then false
  else if !pyIsAlphaStr c then false
  else true

/-- `normalize_guess` from `utils.py` (also `_normalize_letter` in `app.py`):
strip surrounding whitespace and lowercase. -/
def normalize_guess (ch : String) : String :=
  pyLower (pyStrip ch)

/-- The `GameStatus` record computed by `compute_status`. -/
structure GameStatus where
  masked : String
  wrong : List Char
  lives : Int
  won : Bool
  lost : Bool
deriving DecidableEq, Repr

/-- `mask_word` from `utils.py`: the `pieces` accumulation loop followed by
`" ".join(pieces)`. -/
def mask_word (secret : String) (guessed_letters : List Char) : String :=
  let pieces : List String :=
    secret.data.foldl
      (fun acc c => acc ++ [if c ∈ guessed_letters then String.singleton c else "_"]) []
  String.intercalate " " pieces

/-- `compute_status` from `utils.py`.  Python's `sorted` over a set
comprehension is modelled as an insertion sort of the filtered list. -/
def compute_status (secret : String) (guessed_letters : List Char) (lives : Int) :
    GameStatus :=
  let masked := mask_word secret guessed_letters
  let wrong_letters :=
    (guessed_letters.filter (fun ch => ch ∉ secret.data)).insertionSort (· ≤ ·)
  let won := secret.data.all (fun c => c ∈ guessed_letters)
  let lost := lives ≤ 0
  { masked := masked, wrong := wrong_letters, lives := lives,
    won := won, lost := decide lost }

/-! ### `app.py`: session state, registry, guess application, restart -/

deriving instance DecidableEq for Except

/-- The server-side `GameState` model from `app.py`.  The Python `guessed` set
of single-letter strings is modelled as a duplicate-free list of characters. -/
structure GameState where
  difficulty : String
  secret : String
  lives : Int
  guessed : List Char
deriving DecidableEq, Repr

/-- The in-memory `games` dict, as an association list; an insert shadows any
earlier binding of the same key, as a dict overwrite does. -/
abbrev Registry := List (String × GameState)

/-- Dict lookup `games.get(game_id)`. -/
def rlookup : Registry → String → Option GameState
  | [], _ => none
  | (k, v) :: rest, gid => if gid = k then some v else rlookup rest gid

/-- Dict store `games[game_id] = gs` (shadowing write). -/
def rinsert (games : Registry) (gid : String) (gs : GameState) : Registry :=
  (gid, gs) :: games

/-- The `HTTPException`s raised by `api_guess` in `app.py`. -/
inductive ApiError where
  /-- HTTP 404 "Unknown game_id" -/
  | unknownGameId
  /-- HTTP 400 "Empty guess" -/
  | emptyGuess
  /-- HTTP 400 "Invalid letter: must be a single A-Z character" -/
  | invalidLetter
  /-- HTTP 400 "Invalid word: only letters allowed" -/
  | invalidWord
deriving DecidableEq, Repr

/-- The `GameResponse` record returned by the routes in `app.py`. -/
structure GameResponse where
  game_id : String
  masked : String
  lives : Int
  wrong : List Char
  won : Bool
  lost : Bool
deriving DecidableEq, Repr

/-- `_new_game_state` from `app.py`.  The word-list file read and the uniform
random `choose_secret` are abstracted into the explicit `secret` parameter;
lives are read off the `DIFFICULTY` table. -/
def _new_game_state (difficulty : String) (secret : String) : GameState :=
  { difficulty := difficulty, secret := secret,
    lives := ((dlookup difficulty).map (fun cfg => (cfg.lives : Int))).getD 0,
    guessed := [] }

/-- `_response` from `app.py`: project a session into the outward record. -/
def response (game_id : String) (gs : GameState) : GameResponse :=
  let status := compute_status gs.secret gs.guessed gs.lives
  { game_id := game_id, masked := status.masked, lives := status.lives,
    wrong := status.wrong, won := status.won, lost := status.lost }

/-- The Python set-`add` on the guessed-letters model: insert when absent. -/
def guessed_add (guessed : List Char) (c : Char) : List Char :=
  if c ∈ guessed then guessed else c :: guessed

/-- The Python `gs.guessed.update(set(gs.secret))`: insert every letter of the
secret into the guessed set. -/
def guessed_update (guessed : List Char) (secret : String) : List Char :=
  secret.data.foldl guessed_add guessed

/-- `api_guess` from `app.py`.  The pair returned is the route's result
(`HTTPException` or `GameResponse`) together with the registry after the
call, which models the in-place mutation of the `games` dict. -/
def api_guess (games : Registry) (game_id : String) (letter : String) :
    Except ApiError GameResponse × Registry :=
  match rlookup games game_id with
  | none => (.error .unknownGameId, games)
  | some gs =>
    let raw := normalize_guess letter
    if raw.data.isEmpty then (.error .emptyGuess, games)
    else
      let snap := compute_status gs.secret gs.guessed gs.lives
      if snap.won || snap.lost then (.ok (response game_id gs), games)
      else
        match raw.data with
        | [c] =>
          if !is_valid_letter raw then (.error .invalidLetter, games)
          else if c ∈ gs.guessed then (.ok (response game_id gs), games)
          else
            let gs' : GameState :=
              { gs with guessed := guessed_add gs.guessed c,
                        lives := if c ∈ gs.secret.data then gs.lives else gs.lives - 1 }
            (.ok (response game_id gs'), rinsert games game_id gs')
        | _ =>
          if !pyIsAlphaStr raw then (.error .invalidWord, games)
          else if raw = gs.secret then
            let gs' : GameState := { gs with guessed := guessed_update gs.guessed gs.secret }
            (.ok (response game_id gs'), rinsert games game_id gs')
          else
            let gs' : GameState :=
              { gs with lives := if gs.lives - 2 < 0 then 0 else gs.lives - 2 }
            (.ok (response game_id gs'), rinsert games game_id gs')

/-- `api_restart` from `app.py`.  `freshGid` models the `uuid4().hex`
generated for the unknown-identifier path, and `secret` the randomly chosen
secret of the fresh session. -/
def api_restart (games : Registry) (game_id : String) (difficulty : Option String)
    (freshGid : String) (secret : String) : GameResponse × Registry :=
  match rlookup games game_id with
  | some prev =>
    let d := difficulty.getD prev.difficulty
    let gs := _new_game_state d secret
    (response game_id gs, rinsert games game_id gs)
  | none =>
    let d := difficulty.getD "normal"
    let gs := _new_game_state d secret
    (response freshGid gs, rinsert games freshGid gs)

/-! ### Auxiliary definitions used by the claims -/

/-- The specification's wording of deduplication ("duplicates removed, first
occurrence wins"): keep each word's first occurrence, drop all later ones. -/
def dedup_first_spec : List String → List String
  | [] => []
  | w :: ws => w :: dedup_first_spec (ws.filter (fun x => x ≠ w))
termination_by l => l.length
decreasing_by
  simp only [List.length_cons]
  have := List.length_filter_le (fun x => x ≠ w) ws
  omega

/-- The lives invariant over the registry: every stored session has
non-negative lives. -/
abbrev RegInv (games : Registry) : Prop :=
  ∀ p ∈ games, 0 ≤ p.2.lives

/-- The registry after one `api_guess` call of a sequence of guesses. -/
def guess_step (games : Registry) (g : String × String) : Registry :=
  (api_guess games g.1 g.2).2

/-! ### Character-class facts about the modelled primitives -/

lemma uint32_le_iff (a b : UInt32) : a ≤ b ↔ a.toNat ≤ b.toNat := by
  rw [UInt32.le_def, BitVec.le_def]
  exact Iff.rfl

lemma char_toNat_inj {c d : Char} (h : c.toNat = d.toNat) : c = d := by
  apply Char.ext
  apply UInt32.eq_of_toBitVec_eq
  apply BitVec.eq_of_toNat_eq
  exact h

lemma isUpper_iff (c : Char) : c.isUpper = true ↔ 65 ≤ c.toNat ∧ c.toNat ≤ 90 := by
  simp only [Char.isUpper, Bool.and_eq_true, decide_eq_true_eq, ge_iff_le]
  rw [uint32_le_iff, uint32_le_iff]
  have h65 : (65 : UInt32).toNat = 65 := rfl
  have h90 : (90 : UInt32).toNat = 90 := rfl
  simp only [Char.toNat, h65, h90]

lemma isLower_iff (c : Char) : c.isLower = true ↔ 97 ≤ c.toNat ∧ c.toNat ≤ 122 := by
  simp only [Char.isLower, Bool.and_eq_true, decide_eq_true_eq, ge_iff_le]
  rw [uint32_le_iff, uint32_le_iff]
  have h97 : (97 : UInt32).toNat = 97 := rfl
  have h122 : (122 : UInt32).toNat = 122 := rfl
  simp only [Char.toNat, h97, h122]

lemma isAlpha_iff (c : Char) :
    c.isAlpha = true ↔ (65 ≤ c.toNat ∧ c.toNat ≤ 90) ∨ (97 ≤ c.toNat ∧ c.toNat ≤ 122) := by
  simp only [Char.isAlpha, Bool.or_eq_true, isUpper_iff, isLower_iff]

lemma char_eq_iff_toNat (c d : Char) : c = d ↔ c.toNat = d.toNat :=
  ⟨fun h => h ▸ rfl, char_toNat_inj⟩

lemma isWhitespace_iff (c : Char) :
    c.isWhitespace = true ↔ c.toNat = 32 ∨ c.toNat = 9 ∨ c.toNat = 13 ∨ c.toNat = 10 := by
  simp only [Char.isWhitespace, Bool.or_eq_true, decide_eq_true_eq]
  rw [char_eq_iff_toNat, char_eq_iff_toNat, char_eq_iff_toNat, char_eq_iff_toNat]
  have h1 : (' ' : Char).toNat = 32 := rfl
  have h2 : ('\t' : Char).toNat = 9 := rfl
  have h3 : ('\r' : Char).toNat = 13 := rfl
  have h4 : ('\n' : Char).toNat = 10 := rfl
  rw [h1, h2, h3, h4]
  tauto

lemma toNat_ofNat_of_valid {n : Nat} (h : n.isValidChar) : (Char.ofNat n).toNat = n := by
  rw [Char.ofNat, dif_pos h]
  rfl

lemma toLower_toNat (c : Char) :
    (Char.toLower c).toNat = if 65 ≤ c.toNat ∧ c.toNat ≤ 90 then c.toNat + 32 else c.toNat := by
  show (if c.toNat ≥ 65 ∧ c.toNat ≤ 90 then Char.ofNat (c.toNat + 32) else c).toNat =
    if 65 ≤ c.toNat ∧ c.toNat ≤ 90 then c.toNat + 32 else c.toNat
  by_cases h : 65 ≤ c.toNat ∧ c.toNat ≤ 90
  · rw [if_pos h, if_pos h, toNat_ofNat_of_valid (Or.inl (by omega))]
  · rw [if_neg h, if_neg h]

lemma isLower_toLower_of_isAlpha {c : Char} (h : (Char.toLower c).isAlpha = true) :
    (Char.toLower c).isLower = true := by
  rw [isLower_iff, toLower_toNat]
  rw [isAlpha_iff, toLower_toNat] at h
  split at h <;> [skip; skip] <;> split <;> omega

lemma not_whitespace_toLower {c : Char} (h : c.isWhitespace = false) :
    (Char.toLower c).isWhitespace = false := by
  rw [Bool.eq_false_iff, Ne, isWhitespace_iff] at h ⊢
  rw [toLower_toNat]
  split <;> omega

lemma not_whitespace_of_isAlpha {c : Char} (h : c.isAlpha = true) :
    c.isWhitespace = false := by
  rw [isAlpha_iff] at h
  rw [Bool.eq_false_iff, Ne, isWhitespace_iff]
  omega



/-! ### List and string helper lemmas -/

lemma foldl_append_map {α β : Type} (f : α → β) :
    ∀ (l : List α) (acc : List β),
      l.foldl (fun a c => a ++ [f c]) acc = acc ++ l.map f := by
  intro l
  induction l with
  | nil => simp
  | cons c t ih =>
    intro acc
    simp [ih]

lemma dropWhile_first_false {α : Type} (p : α → Bool) :
    ∀ (l : List α) (c : α) (t : List α), l.dropWhile p = c :: t → p c = false := by
  intro l
  induction l with
  | nil => intro c t h; simp [List.dropWhile] at h
  | cons a as ih =>
    intro c t h
    rw [List.dropWhile_cons] at h
    by_cases hpa : p a = true
    · rw [if_pos hpa] at h
      exact ih c t h
    · rw [if_neg hpa] at h
      cases h
      simpa using hpa

lemma map_eq_singleton {α β : Type} (f : α → β) (l : List α) (c : β) (h : l.map f = [c]) :
    ∃ a, l = [a] ∧ f a = c := by
  cases l with
  | nil => simp at h
  | cons a t =>
    cases t with
    | nil =>
      simp only [List.map_cons, List.map_nil, List.cons.injEq, and_true] at h
      exact ⟨a, rfl, h⟩
    | cons b t2 => simp at h

lemma pyStrip_singleton_not_ws {s : String} {c : Char} (h : (pyStrip s).data = [c]) :
    c.isWhitespace = false := by
  unfold pyStrip at h
  simp only [List.reverse_eq_iff] at h
  exact dropWhile_first_false _ _ c [] (by simpa using h)

lemma normalize_singleton_not_ws {s : String} {c : Char} (h : (normalize_guess s).data = [c]) :
    c.isWhitespace = false := by
  unfold normalize_guess pyLower at h
  obtain ⟨a, ha, hc⟩ := map_eq_singleton _ _ _ h
  have := pyStrip_singleton_not_ws (s := s) (by rw [ha])
  rw [← hc]
  exact not_whitespace_toLower this

lemma pyStrip_singleton_self {c : Char} (h : c.isWhitespace = false) :
    pyStrip ⟨[c]⟩ = ⟨[c]⟩ := by
  unfold pyStrip
  simp [List.dropWhile_cons, h]

lemma is_valid_letter_singleton {c : Char} (h : c.isWhitespace = false) :
    is_valid_letter ⟨[c]⟩ = c.isAlpha := by
  unfold is_valid_letter
  rw [pyStrip_singleton_self h]
  simp [pyIsAlphaStr]

lemma mem_foldl_guessed_add :
    ∀ (l g : List Char) (x : Char), x ∈ l.foldl guessed_add g ↔ x ∈ g ∨ x ∈ l := by
  intro l
  induction l with
  | nil => simp
  | cons c t ih =>
    intro g x
    rw [List.foldl_cons, ih]
    unfold guessed_add
    by_cases hc : c ∈ g
    · simp only [if_pos hc, List.mem_cons]
      constructor
      · tauto
      · rintro (h | rfl | h) <;> tauto
    · simp only [if_neg hc, List.mem_cons]
      tauto

lemma rlookup_mem : ∀ (games : Registry) (gid : String) (gs : GameState),
    rlookup games gid = some gs → (gid, gs) ∈ games := by
  intro games
  induction games with
  | nil => intro gid gs h; simp [rlookup] at h
  | cons p rest ih =>
    intro gid gs h
    rw [show p = (p.1, p.2) from rfl, rlookup] at h
    by_cases hk : gid = p.1
    · rw [if_pos hk] at h
      cases h
      rw [hk]
      exact List.mem_cons_self _ _
    · rw [if_neg hk] at h
      exact List.mem_cons_of_mem _ (ih gid gs h)



/-! ### Branch lemmas for `api_guess` -/

lemma api_guess_unknown {games : Registry} {gid letter : String}
    (h : rlookup games gid = none) :
    api_guess games gid letter = (.error .unknownGameId, games) := by
  unfold api_guess
  rw [h]

lemma api_guess_empty {games : Registry} {gid letter : String} {gs : GameState}
    (hfind : rlookup games gid = some gs)
    (hraw : (normalize_guess letter).data = []) :
    api_guess games gid letter = (.error .emptyGuess, games) := by
  unfold api_guess
  rw [hfind]
  simp only [hraw, List.isEmpty_nil, if_true]

lemma api_guess_ended {games : Registry} {gid letter : String} {gs : GameState}
    (hfind : rlookup games gid = some gs)
    (hne : (normalize_guess letter).data ≠ [])
    (hend : ((compute_status gs.secret gs.guessed gs.lives).won ||
             (compute_status gs.secret gs.guessed gs.lives).lost) = true) :
    api_guess games gid letter = (.ok (response gid gs), games) := by
  unfold api_guess
  rw [hfind]
  have hemp : (normalize_guess letter).data.isEmpty = false := by
    simpa [List.isEmpty_iff] using hne
  simp only [hemp, Bool.false_eq_true, if_false, hend, if_true]



lemma api_guess_invalid_letter {games : Registry} {gid letter : String} {gs : GameState} {c : Char}
    (hfind : rlookup games gid = some gs)
    (hnend : ((compute_status gs.secret gs.guessed gs.lives).won ||
              (compute_status gs.secret gs.guessed gs.lives).lost) = false)
    (hdata : (normalize_guess letter).data = [c])
    (hinv : is_valid_letter (normalize_guess letter) = false) :
    api_guess games gid letter = (.error .invalidLetter, games) := by
  unfold api_guess
  rw [hfind]
  simp only [hdata, hnend, hinv, List.isEmpty_cons, Bool.false_eq_true, if_false,
    Bool.not_false, if_true]

lemma api_guess_dup_letter {games : Registry} {gid letter : String} {gs : GameState} {c : Char}
    (hfind : rlookup games gid = some gs)
    (hnend : ((compute_status gs.secret gs.guessed gs.lives).won ||
              (compute_status gs.secret gs.guessed gs.lives).lost) = false)
    (hdata : (normalize_guess letter).data = [c])
    (hval : is_valid_letter (normalize_guess letter) = true)
    (hmem : c ∈ gs.guessed) :
    api_guess games gid letter = (.ok (response gid gs), games) := by
  unfold api_guess
  rw [hfind]
  simp only [hdata, hnend, hval, hmem, List.isEmpty_cons, Bool.false_eq_true, if_false,
    Bool.not_true, if_true]

lemma api_guess_new_letter {games : Registry} {gid letter : String} {gs : GameState} {c : Char}
    (hfind : rlookup games gid = some gs)
    (hnend : ((compute_status gs.secret gs.guessed gs.lives).won ||
              (compute_status gs.secret gs.guessed gs.lives).lost) = false)
    (hdata : (normalize_guess letter).data = [c])
    (hval : is_valid_letter (normalize_guess letter) = true)
    (hmem : c ∉ gs.guessed) :
    api_guess games gid letter =
      (.ok (response gid
        { gs with guessed := guessed_add gs.guessed c,
                  lives := if c ∈ gs.secret.data then gs.lives else gs.lives - 1 }),
       rinsert games gid
        { gs with guessed := guessed_add gs.guessed c,
                  lives := if c ∈ gs.secret.data then gs.lives else gs.lives - 1 }) := by
  unfold api_guess
  rw [hfind]
  simp only [hdata, hnend, hval, hmem, List.isEmpty_cons, Bool.false_eq_true, if_false,
    Bool.not_true, if_true]

lemma api_guess_invalid_word {games : Registry} {gid letter : String} {gs : GameState}
    {a b : Char} {t : List Char}
    (hfind : rlookup games gid = some gs)
    (hnend : ((compute_status gs.secret gs.guessed gs.lives).won ||
              (compute_status gs.secret gs.guessed gs.lives).lost) = false)
    (hdata : (normalize_guess letter).data = a :: b :: t)
    (halpha : pyIsAlphaStr (normalize_guess letter) = false) :
    api_guess games gid letter = (.error .invalidWord, games) := by
  unfold api_guess
  rw [hfind]
  simp only [hdata, hnend, halpha, List.isEmpty_cons, Bool.false_eq_true, if_false,
    Bool.not_false, if_true]

lemma api_guess_correct_word {games : Registry} {gid letter : String} {gs : GameState}
    {a b : Char} {t : List Char}
    (hfind : rlookup games gid = some gs)
    (hnend : ((compute_status gs.secret gs.guessed gs.lives).won ||
              (compute_status gs.secret gs.guessed gs.lives).lost) = false)
    (hdata : (normalize_guess letter).data = a :: b :: t)
    (halpha : pyIsAlphaStr (normalize_guess letter) = true)
    (heq : normalize_guess letter = gs.secret) :
    api_guess games gid letter =
      (.ok (response gid { gs with guessed := guessed_update gs.guessed gs.secret }),
       rinsert games gid { gs with guessed := guessed_update gs.guessed gs.secret }) := by
  unfold api_guess
  rw [hfind]
  simp only [hdata, hnend, halpha, List.isEmpty_cons, Bool.false_eq_true, if_false,
    Bool.not_true, if_true]
  rw [if_pos heq]

lemma api_guess_wrong_word {games : Registry} {gid letter : String} {gs : GameState}
    {a b : Char} {t : List Char}
    (hfind : rlookup games gid = some gs)
    (hnend : ((compute_status gs.secret gs.guessed gs.lives).won ||
              (compute_status gs.secret gs.guessed gs.lives).lost) = false)
    (hdata : (normalize_guess letter).data = a :: b :: t)
    (halpha : pyIsAlphaStr (normalize_guess letter) = true)
    (hne : normalize_guess letter ≠ gs.secret) :
    api_guess games gid letter =
      (.ok (response gid { gs with lives := if gs.lives - 2 < 0 then 0 else gs.lives - 2 }),
       rinsert games gid { gs with lives := if gs.lives - 2 < 0 then 0 else gs.lives - 2 }) := by
  unfold api_guess
  rw [hfind]
  simp only [hdata, hnend, halpha, List.isEmpty_cons, Bool.false_eq_true, if_false,
    Bool.not_true, if_true]
  rw [if_neg hne]

/-! ### Projections of `compute_status` -/

lemma compute_status_masked (s : String) (g : List Char) (l : Int) :
    (compute_status s g l).masked = mask_word s g := rfl

lemma compute_status_wrong (s : String) (g : List Char) (l : Int) :
    (compute_status s g l).wrong =
      (g.filter (fun ch => ch ∉ s.data)).insertionSort (· ≤ ·) := rfl

lemma compute_status_lives (s : String) (g : List Char) (l : Int) :
    (compute_status s g l).lives = l := rfl

lemma compute_status_won (s : String) (g : List Char) (l : Int) :
    (compute_status s g l).won = s.data.all (fun c => c ∈ g) := rfl

lemma compute_status_lost (s : String) (g : List Char) (l : Int) :
    (compute_status s g l).lost = decide (l ≤ 0) := rfl

/-! ### Deduplication lemmas -/

lemma dedup_loop_eq_spec :
    ∀ (l seen : List String),
      dedup_loop seen l = dedup_first_spec (l.filter (fun w => w ∉ seen)) := by
  intro l
  induction l with
  | nil => intro seen; simp [dedup_loop, dedup_first_spec]
  | cons w ws ih =>
    intro seen
    rw [dedup_loop]
    by_cases hw : w ∈ seen
    · rw [if_pos hw, List.filter_cons_of_neg (by simpa using hw), ih]
    · rw [if_neg hw, List.filter_cons_of_pos (by simpa using hw), dedup_first_spec, ih]
      rw [List.filter_filter]
      congr 2
      apply List.filter_congr
      intro x _
      by_cases h1 : x = w <;> by_cases h2 : x ∈ seen <;> simp [h1, h2]

lemma mem_dedup_first_spec : ∀ (l : List String) (x : String),
    x ∈ dedup_first_spec l ↔ x ∈ l := by
  intro l
  induction l using dedup_first_spec.induct with
  | case1 => simp [dedup_first_spec]
  | case2 w ws ih =>
    intro x
    rw [dedup_first_spec]
    simp only [List.mem_cons, ih, List.mem_filter, decide_eq_true_eq]
    by_cases hx : x = w <;> tauto

lemma nodup_dedup_first_spec : ∀ (l : List String), (dedup_first_spec l).Nodup := by
  intro l
  induction l using dedup_first_spec.induct with
  | case1 => simp [dedup_first_spec]
  | case2 w ws ih =>
    rw [dedup_first_spec]
    refine List.Nodup.cons ?_ ih
    intro hmem
    rw [mem_dedup_first_spec] at hmem
    simp at hmem

/-! ### `process_line` lemmas -/

lemma process_line_some {cfg : DiffCfg} {line w : String}
    (h : process_line cfg line = some w) :
    w = pyLower (pyStrip line) ∧ w.data ≠ [] ∧ w.data.all Char.isAlpha = true ∧
      cfg.min_len ≤ w.length ∧ w.length ≤ cfg.max_len := by
  rw [process_line] at h
  split at h
  · exact absurd h (by simp)
  · split at h
    · exact absurd h (by simp)
    · cases h
      rename_i h1 h2
      simp only [Bool.or_eq_true, Bool.not_eq_true', List.isEmpty_iff, not_or,
        Bool.not_eq_false] at h1
      simp only [Bool.not_eq_true, Bool.not_eq_false', Bool.and_eq_true,
        decide_eq_true_eq] at h2
      exact ⟨rfl, h1.1, h1.2, h2.1, h2.2⟩

lemma process_line_all_lower {cfg : DiffCfg} {line w : String}
    (h : process_line cfg line = some w) :
    w.data.all Char.isLower = true := by
  obtain ⟨hw, -, halpha, -, -⟩ := process_line_some h
  rw [List.all_eq_true] at halpha ⊢
  intro c hc
  have hcl : ∃ a, Char.toLower a = c := by
    rw [hw] at hc
    simp only [pyLower] at hc
    obtain ⟨a, -, ha⟩ := List.mem_map.mp hc
    exact ⟨a, ha⟩
  obtain ⟨a, rfl⟩ := hcl
  exact isLower_toLower_of_isAlpha (halpha _ hc)

/-! ### Projections of `response` -/

lemma response_game_id (gid : String) (gs : GameState) :
    (response gid gs).game_id = gid := rfl

lemma response_masked (gid : String) (gs : GameState) :
    (response gid gs).masked = (compute_status gs.secret gs.guessed gs.lives).masked := rfl

lemma response_wrong (gid : String) (gs : GameState) :
    (response gid gs).wrong = (compute_status gs.secret gs.guessed gs.lives).wrong := rfl

lemma response_lives (gid : String) (gs : GameState) :
    (response gid gs).lives = gs.lives := rfl

lemma response_won (gid : String) (gs : GameState) :
    (response gid gs).won = (compute_status gs.secret gs.guessed gs.lives).won := rfl

lemma response_lost (gid : String) (gs : GameState) :
    (response gid gs).lost = (compute_status gs.secret gs.guessed gs.lives).lost := rfl

/-! ### Remaining small helpers -/

lemma exists_cons_cons_of_two_le {l : List Char} (h : 2 ≤ l.length) :
    ∃ a b t, l = a :: b :: t := by
  cases l with
  | nil => simp at h
  | cons a t1 =>
    cases t1 with
    | nil => simp at h
    | cons b t2 => exact ⟨a, b, t2, rfl⟩

lemma ended_false_of_flags {gs : GameState}
    (hwon : (compute_status gs.secret gs.guessed gs.lives).won = false)
    (hlost : (compute_status gs.secret gs.guessed gs.lives).lost = false) :
    ((compute_status gs.secret gs.guessed gs.lives).won ||
     (compute_status gs.secret gs.guessed gs.lives).lost) = false := by
  rw [hwon, hlost]
  rfl

lemma RegInv_insert {games : Registry} {gid : String} {gs' : GameState}
    (h : RegInv games) (h2 : 0 ≤ gs'.lives) : RegInv (rinsert games gid gs') := by
  intro p hp
  rcases List.mem_cons.mp hp with rfl | hp
  · exact h2
  · exact h p hp

lemma api_guess_snd_RegInv (games : Registry) (gid letter : String) (h : RegInv games) :
    RegInv (api_guess games gid letter).2 := by
  unfold api_guess
  cases hlk : rlookup games gid with
  | none => exact h
  | some gs =>
    have hgs : 0 ≤ gs.lives := h _ (rlookup_mem games gid gs hlk)
    dsimp only
    split
    · exact h
    · split
      · exact h
      · rename_i hnend
        have hlives : 0 < gs.lives := by
          rw [Bool.or_eq_true, not_or, compute_status_lost] at hnend
          have h2 := hnend.2
          simp only [decide_eq_true_eq] at h2
          omega
        split
        · split
          · exact h
          · split
            · exact h
            · exact RegInv_insert h (by dsimp only; split <;> omega)
        · split
          · exact h
          · split
            · exact RegInv_insert h hgs
            · exact RegInv_insert h (by dsimp only; split <;> omega)

/-! ### Claim theorems -/

/-- Claim C1: `compute_status` is a pure projection equal to the reference
definition: `masked` shows, at each character position of the secret, the
character when guessed and a placeholder otherwise, positions joined by a
single space; `wrong` is the ascending sorted list of guessed letters that
occur nowhere in the secret; `won` holds iff every distinct letter of the
secret is guessed; `lost` holds iff `lives ≤ 0`; the two flags are computed
independently and can both be true at once. -/
theorem compute_status_reference_projection :
    (∀ (s : String) (g : List Char) (l : Int),
      (compute_status s g l).masked =
        String.intercalate " "
          (s.data.map (fun c => if c ∈ g then String.singleton c else "_"))) ∧
    (∀ (s : String) (g : List Char) (l : Int),
      (compute_status s g l).wrong.Sorted (· ≤ ·)) ∧
    (∀ (s : String) (g : List Char) (l : Int) (c : Char),
      c ∈ (compute_status s g l).wrong ↔ c ∈ g ∧ c ∉ s.data) ∧
    (∀ (s : String) (g : List Char) (l : Int),
      ((compute_status s g l).won = true ↔ ∀ c ∈ s.data, c ∈ g)) ∧
    (∀ (s : String) (g : List Char) (l : Int),
      ((compute_status s g l).lost = true ↔ l ≤ 0)) ∧
    ((compute_status ⟨['a']⟩ ['a'] 0).won = true ∧
     (compute_status ⟨['a']⟩ ['a'] 0).lost = true) := by
  refine ⟨?_, ?_, ?_, ?_, ?_, by decide, by decide⟩
  · intro s g l
    rw [compute_status_masked, mask_word]
    rw [foldl_append_map (fun c => if c ∈ g then String.singleton c else "_")]
    rw [List.nil_append]
  · intro s g l
    rw [compute_status_wrong]
    exact List.sorted_insertionSort _ _
  · intro s g l c
    rw [compute_status_wrong]
    rw [(List.perm_insertionSort (· ≤ ·) _).mem_iff, List.mem_filter]
    simp only [decide_eq_true_eq]
  · intro s g l
    rw [compute_status_won, List.all_eq_true]
    simp only [decide_eq_true_eq]
  · intro s g l
    rw [compute_status_lost]
    simp only [decide_eq_true_eq]

/-- Claim C2: across any sequence of guess operations, the lives of every
session in the registry stay non-negative: a wrong letter decrements by one
without clamping, but only fires on an in-progress session (which has
`lives > 0`), and the wrong-word path clamps at zero explicitly. -/
theorem lives_never_negative (games : Registry) (gseq : List (String × String))
    (h : RegInv games) : RegInv (gseq.foldl guess_step games) := by
  induction gseq generalizing games with
  | nil => exact h
  | cons g t ih =>
    rw [List.foldl_cons]
    exact ih _ (api_guess_snd_RegInv _ _ _ h)

/-- Witness for C2 at a concrete registry and guess sequence (seven wrong
letters against a seven-lives session, then further guesses). -/
theorem lives_never_negative_witness :
    RegInv [("g1", ⟨"normal", "banana", 7, []⟩)] ∧
    RegInv (List.foldl guess_step [("g1", ⟨"normal", "banana", 7, []⟩)]
      [("g1", "z"), ("g1", "q"), ("g1", "w"), ("g1", "e"), ("g1", "r"),
       ("g1", "t"), ("g1", "y"), ("g1", "u"), ("g1", "cherry")]) :=
  ⟨by decide,
   lives_never_negative [("g1", ⟨"normal", "banana", 7, []⟩)]
     [("g1", "z"), ("g1", "q"), ("g1", "w"), ("g1", "e"), ("g1", "r"),
      ("g1", "t"), ("g1", "y"), ("g1", "u"), ("g1", "cherry")] (by decide)⟩

/-- Claim C3: a guess with non-empty normalized input against a session whose
derived state is won or lost is a no-op: it returns the current status and
leaves the registry (hence secret, guessed letters and lives) unchanged. -/
theorem guess_after_end_noop (games : Registry) (gid letter : String) (gs : GameState)
    (hfind : rlookup games gid = some gs)
    (hend : (compute_status gs.secret gs.guessed gs.lives).won = true ∨
            (compute_status gs.secret gs.guessed gs.lives).lost = true)
    (hne : (normalize_guess letter).data ≠ []) :
    api_guess games gid letter = (.ok (response gid gs), games) :=
  api_guess_ended hfind hne (by rcases hend with h | h <;> simp [h])

/-- Witness for C3: a lost session ignores a further (even invalid) guess. -/
theorem guess_after_end_noop_witness :
    rlookup [("g", ⟨"normal", "ab", 0, []⟩)] "g" = some ⟨"normal", "ab", 0, []⟩ ∧
    (compute_status "ab" [] 0).lost = true ∧
    (normalize_guess "z7").data ≠ [] ∧
    api_guess [("g", ⟨"normal", "ab", 0, []⟩)] "g" "z7" =
      (.ok (response "g" ⟨"normal", "ab", 0, []⟩), [("g", ⟨"normal", "ab", 0, []⟩)]) :=
  ⟨by decide, by decide, by decide,
   guess_after_end_noop [("g", ⟨"normal", "ab", 0, []⟩)] "g" "z7" ⟨"normal", "ab", 0, []⟩
     (by decide) (Or.inr (by decide)) (by decide)⟩

/-- Claim C4: on an in-progress session, a normalized alphabetic guess of
length at least two either equals the secret — then every distinct letter of
the secret is marked guessed (forcing `won` in the returned status) and lives
are unchanged — or differs from it — then lives drop by two, clamped at
zero. -/
theorem full_word_guess (games : Registry) (gid letter : String) (gs : GameState)
    (hfind : rlookup games gid = some gs)
    (hwon : (compute_status gs.secret gs.guessed gs.lives).won = false)
    (hlost : (compute_status gs.secret gs.guessed gs.lives).lost = false)
    (hlen : 2 ≤ (normalize_guess letter).data.length)
    (halpha : pyIsAlphaStr (normalize_guess letter) = true) :
    (normalize_guess letter = gs.secret →
      api_guess games gid letter =
        (.ok (response gid { gs with guessed := guessed_update gs.guessed gs.secret }),
         rinsert games gid { gs with guessed := guessed_update gs.guessed gs.secret }) ∧
      (∀ c ∈ gs.secret.data, c ∈ guessed_update gs.guessed gs.secret) ∧
      ({ gs with guessed := guessed_update gs.guessed gs.secret } : GameState).lives
          = gs.lives ∧
      (response gid { gs with guessed := guessed_update gs.guessed gs.secret }).won
          = true) ∧
    (normalize_guess letter ≠ gs.secret →
      api_guess games gid letter =
        (.ok (response gid { gs with lives := max (gs.lives - 2) 0 }),
         rinsert games gid { gs with lives := max (gs.lives - 2) 0 })) := by
  obtain ⟨a, b, t, hdata⟩ := exists_cons_cons_of_two_le hlen
  have hnend := ended_false_of_flags hwon hlost
  constructor
  · intro heq
    refine ⟨api_guess_correct_word hfind hnend hdata halpha heq, ?_, rfl, ?_⟩
    · intro c hc
      exact (mem_foldl_guessed_add gs.secret.data gs.guessed c).mpr (Or.inr hc)
    · rw [response_won]
      rw [compute_status_won, List.all_eq_true]
      intro c hc
      simp only [decide_eq_true_eq]
      exact (mem_foldl_guessed_add gs.secret.data gs.guessed c).mpr (Or.inr hc)
  · intro hne
    have hres := api_guess_wrong_word hfind hnend hdata halpha hne
    have hmax : (if gs.lives - 2 < 0 then 0 else gs.lives - 2) = max (gs.lives - 2) 0 := by
      split <;> omega
    rw [hmax] at hres
    exact hres

/-- Witness for C4, exercising both the correct-word branch (secret
"banana") and the wrong-word branch ("cherry" at one remaining life,
clamping to zero). -/
theorem full_word_guess_witness :
    rlookup [("g", ⟨"normal", "banana", 7, []⟩)] "g" = some ⟨"normal", "banana", 7, []⟩ ∧
    normalize_guess "banana" = "banana" ∧
    api_guess [("g", ⟨"normal", "banana", 7, []⟩)] "g" "banana" =
      (.ok (response "g" ⟨"normal", "banana", 7, guessed_update [] "banana"⟩),
       rinsert [("g", ⟨"normal", "banana", 7, []⟩)] "g"
         ⟨"normal", "banana", 7, guessed_update [] "banana"⟩) ∧
    api_guess [("h", ⟨"normal", "banana", 1, []⟩)] "h" "cherry" =
      (.ok (response "h" ⟨"normal", "banana", max (1 - 2) 0, []⟩),
       rinsert [("h", ⟨"normal", "banana", 1, []⟩)] "h"
         ⟨"normal", "banana", max (1 - 2) 0, []⟩) :=
  ⟨by decide, by decide,
   ((full_word_guess [("g", ⟨"normal", "banana", 7, []⟩)] "g" "banana"
      ⟨"normal", "banana", 7, []⟩ (by decide) (by decide) (by decide) (by decide)
      (by decide)).1 (by decide)).1,
   (full_word_guess [("h", ⟨"normal", "banana", 1, []⟩)] "h" "cherry"
      ⟨"normal", "banana", 1, []⟩ (by decide) (by decide) (by decide) (by decide)
      (by decide)).2 (by decide)⟩

/-- Claim C7: guessing a letter already in the guessed set of an in-progress
session is a no-op: the same status as before is returned, with no life loss
and no change to the registry. -/
theorem repeated_letter_idempotent (games : Registry) (gid letter : String)
    (gs : GameState) (c : Char)
    (hfind : rlookup games gid = some gs)
    (hwon : (compute_status gs.secret gs.guessed gs.lives).won = false)
    (hlost : (compute_status gs.secret gs.guessed gs.lives).lost = false)
    (hdata : (normalize_guess letter).data = [c])
    (halpha : c.isAlpha = true)
    (hmem : c ∈ gs.guessed) :
    api_guess games gid letter = (.ok (response gid gs), games) := by
  have hnws := normalize_singleton_not_ws hdata
  have hraw : normalize_guess letter = ⟨[c]⟩ := by
    rw [← hdata]
  have hval : is_valid_letter (normalize_guess letter) = true := by
    rw [hraw, is_valid_letter_singleton hnws]
    exact halpha
  exact api_guess_dup_letter hfind (ended_false_of_flags hwon hlost) hdata hval hmem

/-- Witness for C7: repeating the guess "z" (submitted as " Z ") against a
session that already guessed it. -/
theorem repeated_letter_idempotent_witness :
    rlookup [("g", ⟨"normal", "banana", 6, ['z']⟩)] "g"
        = some ⟨"normal", "banana", 6, ['z']⟩ ∧
    (normalize_guess " Z ").data = ['z'] ∧
    ('z' ∈ (⟨"normal", "banana", 6, ['z']⟩ : GameState).guessed) ∧
    api_guess [("g", ⟨"normal", "banana", 6, ['z']⟩)] "g" " Z " =
      (.ok (response "g" ⟨"normal", "banana", 6, ['z']⟩),
       [("g", ⟨"normal", "banana", 6, ['z']⟩)]) :=
  ⟨by decide, by decide, by decide,
   repeated_letter_idempotent [("g", ⟨"normal", "banana", 6, ['z']⟩)] "g" " Z "
     ⟨"normal", "banana", 6, ['z']⟩ 'z' (by decide) (by decide) (by decide) (by decide)
     (by decide) (by decide)⟩

/-- Claim C5: restart never fails.  With an unknown identifier it creates a
brand-new session under the freshly generated identifier (the supplied one is
not reused), defaulting the difficulty to "normal" when none is given; with a
known identifier it replaces the session under that same identifier, using
the given difficulty or the previous session's. -/
theorem restart_never_fails (games : Registry) (gid : String) (odiff : Option String)
    (freshGid secret : String) :
    (rlookup games gid = none →
      api_restart games gid odiff freshGid secret =
        (response freshGid (_new_game_state (odiff.getD "normal") secret),
         rinsert games freshGid (_new_game_state (odiff.getD "normal") secret)) ∧
      (response freshGid (_new_game_state (odiff.getD "normal") secret)).game_id
          = freshGid ∧
      rlookup (rinsert games freshGid (_new_game_state (odiff.getD "normal") secret))
          freshGid = some (_new_game_state (odiff.getD "normal") secret) ∧
      (_new_game_state (odiff.getD "normal") secret).guessed = []) ∧
    (∀ prev, rlookup games gid = some prev →
      api_restart games gid odiff freshGid secret =
        (response gid (_new_game_state (odiff.getD prev.difficulty) secret),
         rinsert games gid (_new_game_state (odiff.getD prev.difficulty) secret)) ∧
      rlookup (rinsert games gid (_new_game_state (odiff.getD prev.difficulty) secret))
          gid = some (_new_game_state (odiff.getD prev.difficulty) secret)) := by
  constructor
  · intro h
    unfold api_restart
    rw [h]
    refine ⟨rfl, rfl, ?_, rfl⟩
    rw [rinsert, rlookup, if_pos rfl]
  · intro prev h
    unfold api_restart
    rw [h]
    refine ⟨rfl, ?_⟩
    rw [rinsert, rlookup, if_pos rfl]

/-- Witness for C5: restarting an unknown identifier on an empty registry
succeeds with a fresh identifier, and restarting a known identifier replaces
that session. -/
theorem restart_never_fails_witness :
    rlookup ([] : Registry) "ghost" = none ∧
    api_restart [] "ghost" none "fresh" "cruiser" =
      (response "fresh" (_new_game_state "normal" "cruiser"),
       rinsert [] "fresh" (_new_game_state "normal" "cruiser")) ∧
    rlookup [("g", ⟨"hard", "odyssey", 5, []⟩)] "g" = some ⟨"hard", "odyssey", 5, []⟩ ∧
    api_restart [("g", ⟨"hard", "odyssey", 5, []⟩)] "g" none "fresh" "monarch" =
      (response "g" (_new_game_state "hard" "monarch"),
       rinsert [("g", ⟨"hard", "odyssey", 5, []⟩)] "g" (_new_game_state "hard" "monarch")) :=
  ⟨by decide,
   ((restart_never_fails [] "ghost" none "fresh" "cruiser").1 (by decide)).1,
   by decide,
   ((restart_never_fails [("g", ⟨"hard", "odyssey", 5, []⟩)] "g" none "fresh"
      "monarch").2 ⟨"hard", "odyssey", 5, []⟩ (by decide)).1⟩

/-- Claim C8: guess application is atomic with respect to validation
failures: whenever `api_guess` reports an error the registry is unchanged,
an unknown identifier is reported by the distinct `unknownGameId` error, an
input that normalizes to empty by `emptyGuess`, a single non-alphabetic
character by `invalidLetter`, and a longer input containing a non-alphabetic
character by `invalidWord` — all without mutating the session. -/
theorem guess_errors_atomic :
    (∀ (games : Registry) (gid letter : String) (e : ApiError),
      (api_guess games gid letter).1 = .error e → (api_guess games gid letter).2 = games) ∧
    (∀ (games : Registry) (gid letter : String), rlookup games gid = none →
      api_guess games gid letter = (.error .unknownGameId, games)) ∧
    (∀ (games : Registry) (gid letter : String) (gs : GameState),
      rlookup games gid = some gs → (normalize_guess letter).data = [] →
      api_guess games gid letter = (.error .emptyGuess, games)) ∧
    (∀ (games : Registry) (gid letter : String) (gs : GameState) (c : Char),
      rlookup games gid = some gs →
      (compute_status gs.secret gs.guessed gs.lives).won = false →
      (compute_status gs.secret gs.guessed gs.lives).lost = false →
      (normalize_guess letter).data = [c] → c.isAlpha = false →
      api_guess games gid letter = (.error .invalidLetter, games)) ∧
    (∀ (games : Registry) (gid letter : String) (gs : GameState),
      rlookup games gid = some gs →
      (compute_status gs.secret gs.guessed gs.lives).won = false →
      (compute_status gs.secret gs.guessed gs.lives).lost = false →
      2 ≤ (normalize_guess letter).data.length →
      (normalize_guess letter).data.all Char.isAlpha = false →
      api_guess games gid letter = (.error .invalidWord, games)) := by
  refine ⟨?_, ?_, ?_, ?_, ?_⟩
  · intro games gid letter e
    unfold api_guess
    cases rlookup games gid with
    | none => intro _; rfl
    | some gs =>
      dsimp only
      split
      · intro _; rfl
      · split
        · intro _; rfl
        · split
          · split
            · intro _; rfl
            · split
              · intro h; exact absurd h (by simp)
              · intro h; exact absurd h (by simp)
          · split
            · intro _; rfl
            · split
              · intro h; exact absurd h (by simp)
              · intro h; exact absurd h (by simp)
  · intro games gid letter h
    exact api_guess_unknown h
  · intro games gid letter gs hfind hraw
    exact api_guess_empty hfind hraw
  · intro games gid letter gs c hfind hwon hlost hdata halpha
    have hnws := normalize_singleton_not_ws hdata
    have hraw : normalize_guess letter = ⟨[c]⟩ := by
      rw [← hdata]
    have hval : is_valid_letter (normalize_guess letter) = false := by
      rw [hraw, is_valid_letter_singleton hnws]
      exact halpha
    exact api_guess_invalid_letter hfind (ended_false_of_flags hwon hlost) hdata hval
  · intro games gid letter gs hfind hwon hlost hlen hall
    obtain ⟨a, b, t, hdata⟩ := exists_cons_cons_of_two_le hlen
    have halpha : pyIsAlphaStr (normalize_guess letter) = false := by
      rw [pyIsAlphaStr, hall]
      exact Bool.and_false _
    exact api_guess_invalid_word hfind (ended_false_of_flags hwon hlost) hdata halpha

/-- Witness for C8 on a concrete registry: an unknown identifier, a
whitespace-only guess, the guess "7" and the guess "a7b" each produce their
error and leave the registry unchanged. -/
theorem guess_errors_atomic_witness :
    api_guess [("g", ⟨"normal", "banana", 7, []⟩)] "nope" "a" =
      (.error .unknownGameId, [("g", ⟨"normal", "banana", 7, []⟩)]) ∧
    api_guess [("g", ⟨"normal", "banana", 7, []⟩)] "g" "  " =
      (.error .emptyGuess, [("g", ⟨"normal", "banana", 7, []⟩)]) ∧
    api_guess [("g", ⟨"normal", "banana", 7, []⟩)] "g" "7" =
      (.error .invalidLetter, [("g", ⟨"normal", "banana", 7, []⟩)]) ∧
    api_guess [("g", ⟨"normal", "banana", 7, []⟩)] "g" "a7b" =
      (.error .invalidWord, [("g", ⟨"normal", "banana", 7, []⟩)]) :=
  ⟨guess_errors_atomic.2.1 [("g", ⟨"normal", "banana", 7, []⟩)] "nope" "a" (by decide),
   guess_errors_atomic.2.2.1 [("g", ⟨"normal", "banana", 7, []⟩)] "g" "  "
     ⟨"normal", "banana", 7, []⟩ (by decide) (by decide),
   guess_errors_atomic.2.2.2.1 [("g", ⟨"normal", "banana", 7, []⟩)] "g" "7"
     ⟨"normal", "banana", 7, []⟩ '7' (by decide) (by decide) (by decide) (by decide)
     (by decide),
   guess_errors_atomic.2.2.2.2 [("g", ⟨"normal", "banana", 7, []⟩)] "g" "a7b"
     ⟨"normal", "banana", 7, []⟩ (by decide) (by decide) (by decide) (by decide)
     (by decide)⟩

/-- Claim C10: a wrong full-word guess on an in-progress session modifies
only the lives field: secret, difficulty and guessed letters are untouched,
so the masked string and the wrong-letter list of the returned status equal
those of the status before the guess. -/
theorem wrong_word_frame (games : Registry) (gid letter : String) (gs : GameState)
    (hfind : rlookup games gid = some gs)
    (hwon : (compute_status gs.secret gs.guessed gs.lives).won = false)
    (hlost : (compute_status gs.secret gs.guessed gs.lives).lost = false)
    (hlen : 2 ≤ (normalize_guess letter).data.length)
    (halpha : pyIsAlphaStr (normalize_guess letter) = true)
    (hne : normalize_guess letter ≠ gs.secret) :
    api_guess games gid letter =
      (.ok (response gid
         { gs with lives := if gs.lives - 2 < 0 then 0 else gs.lives - 2 }),
       rinsert games gid
         { gs with lives := if gs.lives - 2 < 0 then 0 else gs.lives - 2 }) ∧
    ({ gs with lives := if gs.lives - 2 < 0 then 0 else gs.lives - 2 } : GameState).secret
        = gs.secret ∧
    ({ gs with lives := if gs.lives - 2 < 0 then 0 else gs.lives - 2 } : GameState).difficulty
        = gs.difficulty ∧
    ({ gs with lives := if gs.lives - 2 < 0 then 0 else gs.lives - 2 } : GameState).guessed
        = gs.guessed ∧
    (response gid { gs with lives := if gs.lives - 2 < 0 then 0 else gs.lives - 2 }).masked
        = (response gid gs).masked ∧
    (response gid { gs with lives := if gs.lives - 2 < 0 then 0 else gs.lives - 2 }).wrong
        = (response gid gs).wrong := by
  obtain ⟨a, b, t, hdata⟩ := exists_cons_cons_of_two_le hlen
  exact ⟨api_guess_wrong_word hfind (ended_false_of_flags hwon hlost) hdata halpha hne,
         rfl, rfl, rfl, rfl, rfl⟩

/-- Witness for C10: the wrong word "cherry" against the secret "banana"
leaves everything but lives unchanged. -/
theorem wrong_word_frame_witness :
    normalize_guess "cherry" ≠ "banana" ∧
    api_guess [("g", ⟨"normal", "banana", 7, ['z', 'b']⟩)] "g" "cherry" =
      (.ok (response "g" ⟨"normal", "banana", 5, ['z', 'b']⟩),
       rinsert [("g", ⟨"normal", "banana", 7, ['z', 'b']⟩)] "g"
         ⟨"normal", "banana", 5, ['z', 'b']⟩) ∧
    (response "g" ⟨"normal", "banana", 5, ['z', 'b']⟩).masked
        = (response "g" ⟨"normal", "banana", 7, ['z', 'b']⟩).masked ∧
    (response "g" ⟨"normal", "banana", 5, ['z', 'b']⟩).wrong
        = (response "g" ⟨"normal", "banana", 7, ['z', 'b']⟩).wrong := by
  have h := wrong_word_frame [("g", ⟨"normal", "banana", 7, ['z', 'b']⟩)] "g" "cherry"
    ⟨"normal", "banana", 7, ['z', 'b']⟩ (by decide) (by decide) (by decide) (by decide)
    (by decide) (by decide)
  exact ⟨by decide, h.1, h.2.2.2.2.1, h.2.2.2.2.2⟩

/-- Counterexample to claim C6 as stated: the hard tier does not accept every
length of at least 7 — its `max_len` is 99, so a lowercase alphabetic word of
100 letters is silently dropped by the length filter. -/
theorem hard_tier_unbounded_cex :
    (String.mk (List.replicate 100 'a')).data.all Char.isAlpha = true ∧
    (String.mk (List.replicate 100 'a')).data.all Char.isLower = true ∧
    (String.mk (List.replicate 100 'a')).length = 100 ∧
    dlookup "hard" = some ⟨7, 99, 5, "words_hard.txt"⟩ ∧
    process_line ⟨7, 99, 5, "words_hard.txt"⟩ (String.mk (List.replicate 100 'a')) = none ∧
    load_words "hard" (some [String.mk (List.replicate 100 'a')]) = .ok [] :=
  ⟨by decide, by decide, by decide, by decide, by decide, by decide⟩

/-- Claim C6 (amended): the tiers are exactly easy (lengths 5–6, 10 lives),
normal (lengths 6–8, 7 lives) and hard (lengths 7–99, 5 lives; `max_len` is
the sentinel 99, not infinity); every lowercase alphabetic word of length
between 7 and 99 passes the hard tier's filter. -/
theorem difficulty_tiers (line : String)
    (hne : (pyLower (pyStrip line)).data ≠ [])
    (halpha : (pyLower (pyStrip line)).data.all Char.isAlpha = true)
    (hmin : 7 ≤ (pyLower (pyStrip line)).length)
    (hmax : (pyLower (pyStrip line)).length ≤ 99) :
    dlookup "easy" = some ⟨5, 6, 10, "words_easy.txt"⟩ ∧
    dlookup "normal" = some ⟨6, 8, 7, "words_normal.txt"⟩ ∧
    dlookup "hard" = some ⟨7, 99, 5, "words_hard.txt"⟩ ∧
    DIFFICULTY.length = 3 ∧
    process_line ⟨7, 99, 5, "words_hard.txt"⟩ line = some (pyLower (pyStrip line)) := by
  refine ⟨by decide, by decide, by decide, by decide, ?_⟩
  rw [process_line]
  rw [if_neg, if_neg]
  · simp only [Bool.not_eq_true, Bool.not_eq_false']
    rw [Bool.and_eq_true]
    constructor <;> simp only [decide_eq_true_eq]
    · exact hmin
    · exact hmax
  · simp only [Bool.or_eq_true, Bool.not_eq_true', not_or]
    exact ⟨by simpa [List.isEmpty_iff] using hne, by simp [halpha]⟩

/-- Witness for the amended C6 at the 10-letter word "strawberry". -/
theorem difficulty_tiers_witness :
    (pyLower (pyStrip "strawberry")).data ≠ [] ∧
    (pyLower (pyStrip "strawberry")).data.all Char.isAlpha = true ∧
    7 ≤ (pyLower (pyStrip "strawberry")).length ∧
    (pyLower (pyStrip "strawberry")).length ≤ 99 ∧
    process_line ⟨7, 99, 5, "words_hard.txt"⟩ "strawberry"
      = some (pyLower (pyStrip "strawberry")) :=
  ⟨by decide, by decide, by decide, by decide,
   (difficulty_tiers "strawberry" (by decide) (by decide) (by decide) (by decide)).2.2.2.2⟩

/-- Claim C9: for a recognized tier the word source returns exactly the
processed lines deduplicated with the first occurrence winning; every
returned word is non-empty, lowercase alphabetic and within the tier's
length bounds; empty or non-alphabetic lines are skipped; an unrecognized
tier fails with the configuration error and a missing word-list file with
the source-unavailable error. -/
theorem load_words_contract :
    (∀ (d : String) (file : Option (List String)), dlookup d = none →
      load_words d file = .error .unknownDifficulty) ∧
    (∀ (d : String) (cfg : DiffCfg), dlookup d = some cfg →
      load_words d none = .error .fileNotFound) ∧
    (∀ (d : String) (cfg : DiffCfg) (lines ws : List String),
      dlookup d = some cfg → load_words d (some lines) = .ok ws →
      ws = dedup_first_spec (lines.filterMap (process_line cfg)) ∧
      ws.Nodup ∧
      (∀ w, w ∈ ws ↔ w ∈ lines.filterMap (process_line cfg)) ∧
      (∀ w ∈ ws, w.data ≠ [] ∧ w.data.all Char.isAlpha = true ∧
        w.data.all Char.isLower = true ∧
        cfg.min_len ≤ w.length ∧ w.length ≤ cfg.max_len)) ∧
    (∀ (cfg : DiffCfg) (line : String),
      (pyLower (pyStrip line)).data = [] ∨
        (pyLower (pyStrip line)).data.all Char.isAlpha = false →
      process_line cfg line = none) := by
  refine ⟨?_, ?_, ?_, ?_⟩
  · intro d file h
    unfold load_words
    rw [h]
  · intro d cfg h
    unfold load_words
    rw [h]
  · intro d cfg lines ws hd hw
    unfold load_words at hw
    rw [hd] at hw
    have hws : ws = dedup_loop [] (lines.filterMap (process_line cfg)) := by
      cases hw
      rfl
    have hspec : ws = dedup_first_spec (lines.filterMap (process_line cfg)) := by
      rw [hws, dedup_loop_eq_spec]
      congr 1
      apply List.filter_eq_self.mpr
      intro a _
      simp
    refine ⟨hspec, ?_, ?_, ?_⟩
    · rw [hspec]
      exact nodup_dedup_first_spec _
    · intro w
      rw [hspec]
      exact mem_dedup_first_spec _ w
    · intro w hmem
      rw [hspec, mem_dedup_first_spec] at hmem
      obtain ⟨line, -, hline⟩ := List.mem_filterMap.mp hmem
      obtain ⟨-, hne, halpha, hmin, hmax⟩ := process_line_some hline
      exact ⟨hne, halpha, process_line_all_lower hline, hmin, hmax⟩
  · intro cfg line h
    rw [process_line]
    rw [if_pos]
    rcases h with h | h
    · simp [h]
    · simp [h]

/-- Witness for C9: the unknown tier "bogus", the missing file for "easy",
and a concrete normal-tier line list with a duplicate, a padded line, an
inner-whitespace line and an empty line. -/
theorem load_words_contract_witness :
    load_words "bogus" (some []) = .error .unknownDifficulty ∧
    load_words "easy" none = .error .fileNotFound ∧
    load_words "normal" (some ["Banana", " cruiser ", "ab cd", "", "banana"])
      = .ok ["banana", "cruiser"] ∧
    ["banana", "cruiser"]
      = dedup_first_spec
          (["Banana", " cruiser ", "ab cd", "", "banana"].filterMap
            (process_line ⟨6, 8, 7, "words_normal.txt"⟩)) ∧
    process_line ⟨6, 8, 7, "words_normal.txt"⟩ "" = none :=
  ⟨load_words_contract.1 "bogus" (some []) (by decide),
   load_words_contract.2.1 "easy" ⟨5, 6, 10, "words_easy.txt"⟩ (by decide),
   by decide,
   (load_words_contract.2.2.1 "normal" ⟨6, 8, 7, "words_normal.txt"⟩
      ["Banana", " cruiser ", "ab cd", "", "banana"] ["banana", "cruiser"]
      (by decide) (by decide)).1,
   load_words_contract.2.2.2 ⟨6, 8, 7, "words_normal.txt"⟩ "" (Or.inl (by decide))⟩

end Hangman
